/-
Verification development for the charts-panel portfolio analytics core.

Shallow embedding conventions:
- JavaScript numbers are modelled as exact rationals.  All definitions are
  translated from the JavaScript source (src/js/portfolio-metrics.js and the
  PortfolioOptimizer class); structure, branch order and rounding behaviour
  follow the source line by line.
- A JavaScript object used as an asset-to-number map is modelled as an
  association list in key-insertion order, matching Object.keys iteration.
- Math.sqrt and Math.pow have no exact rational counterpart, so the embedding
  takes them as explicit function parameters (sqrtQ, powQ); theorems assume
  only facts that are true of the real functions (such as sqrtQ 0 = 0), and
  concrete evaluations instantiate them with functions that agree with the
  real ones at every point the evaluation uses.
- Number.prototype.toFixed(1) followed by parseFloat is modelled by round1,
  rounding to one decimal with ties toward positive infinity, which is the
  ECMAScript rounding rule for toFixed.
- A JavaScript division whose result can be NaN or Infinity (denominator 0)
  is modelled by jsDiv returning Option, with none standing for a non-finite
  result; NaN propagation through later arithmetic is modelled by Option
  plumbing.  The JavaScript truthiness test x || d (which replaces undefined,
  NaN and 0 by d) is modelled by jsOr on Option values, with none standing
  for undefined.
- A caller-supplied metrics callback that may throw is modelled as a function
  into Except Unit; a thrown exception is the error case.
The re-marking below only restores kernel-style reducibility of the basic
rational operations so that the decide tactic can evaluate closed facts; it
changes no definition.
-/
import Mathlib

attribute [local semireducible] Rat.add Rat.mul Rat.inv Rat.sub Rat.ofScientific

set_option maxHeartbeats 1000000

/-- Weight maps: association lists from asset id to weight, in insertion order. -/
abbrev WeightMap := List (String × ℚ)

/-- Sum of the values of a weight map, as in reduce over Object.values. -/
def sumValues (w : WeightMap) : ℚ := (w.map Prod.snd).sum

/-- Value lookup, as in reading a property: first binding wins; a missing key
yields 0 here (the JavaScript flows below never read a missing key). -/
def wlookup (w : WeightMap) (k : String) : ℚ :=
  match w.find? (fun p => p.1 = k) with
  | some p => p.2
  | none => 0

/-- Property assignment on an object: update the first binding of a key. -/
def updateFirst (w : WeightMap) (k : String) (f : ℚ → ℚ) : WeightMap :=
  match w with
  | [] => []
  | p :: rest => if p.1 = k then (p.1, f p.2) :: rest else p :: updateFirst rest k f

/-- Math.abs on rationals. -/
def jsAbs (q : ℚ) : ℚ := if q < 0 then -q else q

/-- parseFloat(x.toFixed(1)): round to one decimal, ties toward positive
infinity (the ECMAScript toFixed rule: of two nearest candidates the larger
numerator is chosen). -/
def round1 (x : ℚ) : ℚ := (⌊10 * x + 1/2⌋ : ℤ) / 10

/-- Division as JavaScript performs it: a zero denominator gives NaN or a
signed Infinity, collapsed here to none. -/
def jsDiv (a b : ℚ) : Option ℚ := if b = 0 then none else some (a / b)

/-- The JavaScript expression v || d on a possibly-undefined number v:
undefined (none) and the falsy number 0 fall back to d. -/
def jsOr (v : Option ℚ) (d : ℚ) : ℚ :=
  match v with
  | none => d
  | some x => if x = 0 then d else x

namespace PortfolioMetrics

/-- Result record of detectFrequency in portfolio-metrics.js.  The source
stores factor := Math.sqrt(periods) (and the literal 1 for annual); the
factor field below holds the corresponding sqrtQ value. -/
structure FrequencyInfo where
  periods : ℕ
  name : String
  factor : ℚ

/-- Length heuristic of detectFrequency (portfolio-metrics.js lines 33-39),
used when dates are absent or fewer than two. -/
def lengthFrequency (sqrtQ : ℚ → ℚ) (dataLength : ℕ) : FrequencyInfo :=
  if dataLength > 1000 then ⟨252, "daily", sqrtQ 252⟩
  else if dataLength > 200 then ⟨52, "weekly", sqrtQ 52⟩
  else if dataLength > 50 then ⟨12, "monthly", sqrtQ 12⟩
  else if dataLength > 10 then ⟨4, "quarterly", sqrtQ 4⟩
  else ⟨1, "annual", 1⟩

/-- detectFrequency (portfolio-metrics.js lines 13-40).  Dates are modelled
as parsed timestamps in milliseconds, none standing for an invalid date.
When either of the first two dates is invalid the day difference is NaN, every
comparison is false, and the date branch returns annual; the length heuristic
is reached only when dates are absent or fewer than two. -/
def detectFrequency (sqrtQ : ℚ → ℚ) (returns : List ℚ)
    (dates : Option (List (Option ℚ))) : FrequencyInfo :=
  let dataLength := returns.length
  match dates with
  | some ds =>
    if 2 ≤ ds.length then
      match ds[0]?.join, ds[1]?.join with
      | some t1, some t2 =>
        let daysDiff := jsAbs (t2 - t1) / (1000 * 60 * 60 * 24)
        if daysDiff ≤ 1.5 then ⟨252, "daily", sqrtQ 252⟩
        else if daysDiff ≤ 8 then ⟨52, "weekly", sqrtQ 52⟩
        else if daysDiff ≤ 35 then ⟨12, "monthly", sqrtQ 12⟩
        else if daysDiff ≤ 100 then ⟨4, "quarterly", sqrtQ 4⟩
        else ⟨1, "annual", 1⟩
      | _, _ => ⟨1, "annual", 1⟩
    else lengthFrequency sqrtQ dataLength
  | none => lengthFrequency sqrtQ dataLength

/-- The largest-weight scan shared verbatim by both normalizers: iterate the
bindings with largestWeight starting at -1 and keep the first strictly
larger value. -/
def largestAsset (w : WeightMap) : Option String :=
  (w.foldl (fun acc p => if p.2 > acc.2 then (some p.1, p.2) else acc)
    ((none : Option String), (-1 : ℚ))).1

/-- Result record of calculateMetricsForReturns.  The volatility field is an
Option because with a single observation the sample variance divides by zero
and the JavaScript value is NaN. -/
structure MetricsResult where
  cagr : ℚ
  volatility : Option ℚ
  sharpe : ℚ
  sortino : ℚ
  cvar : ℚ
  maxDrawdown : ℚ
  frequency : String
  periodsPerYear : ℕ

/-- State of the maximum-drawdown loop: running peak, max drawdown so far,
and compounded wealth. -/
structure DDState where
  peak : ℚ
  maxDD : ℚ
  cumulative : ℚ

/-- calculateMetricsForReturns (portfolio-metrics.js lines 49-124).  sqrtQ
and powQ stand for Math.sqrt and Math.pow.  The empty-input branch returns
the all-zero record of the source (which carries no frequency fields; they
are rendered here as the empty name and 0 periods). -/
def calculateMetricsForReturns (sqrtQ : ℚ → ℚ) (powQ : ℚ → ℚ → ℚ)
    (returns : List ℚ) (riskFreeRate : ℚ)
    (dates : Option (List (Option ℚ))) : MetricsResult :=
  if returns.isEmpty then ⟨0, some 0, 0, 0, 0, 0, "", 0⟩
  else
    let frequency := detectFrequency sqrtQ returns dates
    let periodsPerYear : ℕ := frequency.periods
    let volatilityFactor : ℚ := frequency.factor
    let monthlyReturns := returns.map (· / 100)
    let n : ℕ := monthlyReturns.length
    let meanReturn := monthlyReturns.sum / (n : ℚ)
    let totalReturn := (monthlyReturns.map (fun r => 1 + r)).prod
    let years : ℚ := (n : ℚ) / (periodsPerYear : ℚ)
    let cagr := if 0 < years then (powQ totalReturn (1 / years) - 1) * 100 else 0
    let varianceO := jsDiv ((monthlyReturns.map (fun r => (r - meanReturn) ^ 2)).sum) ((n : ℚ) - 1)
    let volatility := varianceO.map (fun v => sqrtQ v * volatilityFactor * 100)
    let periodicRiskFreeRate := riskFreeRate / (periodsPerYear : ℚ)
    let excessReturns := monthlyReturns.map (fun r => r - periodicRiskFreeRate)
    let meanExcessReturn := excessReturns.sum / (excessReturns.length : ℚ)
    let sharpe :=
      match varianceO with
      | some v =>
        if 0 < sqrtQ v then (meanExcessReturn * (periodsPerYear : ℚ)) / (sqrtQ v * volatilityFactor)
        else 0
      | none => 0
    let downsideReturns := monthlyReturns.filter (fun r => decide (r < periodicRiskFreeRate))
    let downsideDeviation :=
      if 0 < downsideReturns.length then
        sqrtQ ((downsideReturns.map (fun r => (r - periodicRiskFreeRate) ^ 2)).sum
          / (downsideReturns.length : ℚ)) * volatilityFactor
      else 0
    let sortino :=
      if 0 < downsideDeviation then (meanExcessReturn * (periodsPerYear : ℚ)) / downsideDeviation else 0
    let sortedReturns := monthlyReturns.mergeSort (fun a b => decide (a ≤ b))
    let cvarIndex : ℕ := (⌊(n : ℚ) * 0.05⌋ : ℤ).toNat
    let cvar :=
      if 0 < cvarIndex then ((sortedReturns.take cvarIndex).sum / (cvarIndex : ℚ)) * 100 else 0
    let dd := monthlyReturns.foldl
      (fun (st : DDState) ret =>
        let cumulative := st.cumulative * (1 + ret)
        let peak := if cumulative > st.peak then cumulative else st.peak
        let drawdown := (peak - cumulative) / peak
        let maxDD := if drawdown > st.maxDD then drawdown else st.maxDD
        ⟨peak, maxDD, cumulative⟩)
      ⟨1, 0, 1⟩
    ⟨cagr, volatility, sharpe, sortino, cvar, dd.maxDD * 100, frequency.name, periodsPerYear⟩

/-- One chaining step of calculateCumulativeReturns: the parenthesised
formula of line 143 of portfolio-metrics.js. -/
def cumStep (cumulative r : ℚ) : ℚ := (1 + cumulative / 100) * (1 + r / 100) * 100 - 100

/-- calculateCumulativeReturns (portfolio-metrics.js lines 131-149): a loop
over indices pushing 0 at index 0 and, at index i, the chain of the previous
cumulative value with returns[i-1]. -/
def calculateCumulativeReturns (returns : List ℚ) : List ℚ :=
  if returns.isEmpty then []
  else
    ((List.range returns.length).foldl
      (fun (st : ℚ × List ℚ) i =>
        if i = 0 then (st.1, st.2 ++ [0])
        else
          let c := cumStep st.1 (returns.getD (i - 1) 0)
          (c, st.2 ++ [c]))
      (0, [])).2

/-- Series lookup in the per-asset returns object; entries are Option values
since a series may hold null, and reading past the end gives undefined. -/
def alookup (assetReturns : List (String × List (Option ℚ))) (k : String) :
    Option (List (Option ℚ)) :=
  match assetReturns.find? (fun p => p.1 = k) with
  | some p => some p.2
  | none => none

/-- The value of asset k at a given index: undefined when the series is
missing, the index is out of range, or the stored entry is null. -/
def entryAt (assetReturns : List (String × List (Option ℚ))) (k : String) (idx : ℕ) : Option ℚ :=
  match alookup assetReturns k with
  | some l => (l[idx]?).join
  | none => none

/-- calculatePortfolioReturns (portfolio-metrics.js lines 158-188). -/
def calculatePortfolioReturns (weights : WeightMap)
    (assetReturns : List (String × List (Option ℚ))) (indices : List ℕ) : List ℚ :=
  let totalWeight := sumValues weights
  if totalWeight = 0 then indices.map (fun _ => 0)
  else
    let activeAssets := (weights.filter
      (fun p => decide (0 < p.2) && (alookup assetReturns p.1).isSome)).map Prod.fst
    if activeAssets.isEmpty then indices.map (fun _ => 0)
    else
      indices.map (fun idx =>
        (activeAssets.map (fun asset =>
          match entryAt assetReturns asset idx with
          | some v => (wlookup weights asset / 100) * v
          | none => 0)).sum)

/-- normalizeWeights of portfolio-metrics.js (lines 195-232).  Values are
copied, scaled to percentages of the sum and rounded to one decimal, and the
rounding remainder is added to the first largest binding.  When the sum is
not positive the copied input is returned unchanged: this standalone version
has no equal-distribution branch. -/
def normalizeWeights (weights : WeightMap) : WeightMap :=
  let sum := sumValues weights
  if 0 < sum then
    let normalized := weights.map (fun p => (p.1, round1 (p.2 / sum * 100)))
    let roundedSum := sumValues normalized
    let difference := round1 (100 - roundedSum)
    if 0 < jsAbs difference then
      match largestAsset normalized with
      | some k => updateFirst normalized k (fun v => round1 (v + difference))
      | none => normalized
    else normalized
  else weights

/-- Result record of calculateAdditionalMetrics.  Skewness and kurtosis are
Option values because their divisions are unguarded in the source and give
NaN when the sample variance is 0 or the sample has one element. -/
structure AdditionalMetrics where
  skewness : Option ℚ
  kurtosis : Option ℚ
  var95 : ℚ
  var99 : ℚ
  beta : ℚ
  alpha : ℚ
  frequency : String
  periodsPerYear : ℕ

/-- calculateAdditionalMetrics (portfolio-metrics.js lines 241-296). -/
def calculateAdditionalMetrics (sqrtQ : ℚ → ℚ) (powQ : ℚ → ℚ → ℚ)
    (returns : List ℚ) (benchmarkReturns : Option (List ℚ))
    (dates : Option (List (Option ℚ))) : AdditionalMetrics :=
  if returns.isEmpty then ⟨some 0, some 0, 0, 0, 0, 0, "", 0⟩
  else
    let frequency := detectFrequency sqrtQ returns dates
    let periodsPerYear : ℕ := frequency.periods
    let monthlyReturns := returns.map (· / 100)
    let meanReturn := monthlyReturns.sum / (monthlyReturns.length : ℚ)
    let n : ℕ := monthlyReturns.length
    let cubedO := jsDiv ((monthlyReturns.map (fun r => (r - meanReturn) ^ 3)).sum) ((n : ℚ) - 1)
    let varianceO := jsDiv ((monthlyReturns.map (fun r => (r - meanReturn) ^ 2)).sum) ((n : ℚ) - 1)
    let skewness :=
      match cubedO, varianceO with
      | some c, some v => jsDiv c (powQ v (3 / 2))
      | _, _ => none
    let fourthO := jsDiv ((monthlyReturns.map (fun r => (r - meanReturn) ^ 4)).sum) ((n : ℚ) - 1)
    let kurtosis :=
      match fourthO, varianceO with
      | some f, some v => (jsDiv f (powQ v 2)).map (fun x => x - 3)
      | _, _ => none
    let sortedReturns := monthlyReturns.mergeSort (fun a b => decide (a ≤ b))
    let var95Index : ℕ := (⌊(n : ℚ) * 0.05⌋ : ℤ).toNat
    let var99Index : ℕ := (⌊(n : ℚ) * 0.01⌋ : ℤ).toNat
    let var95 := if 0 < var95Index then (sortedReturns.getD var95Index 0) * 100 else 0
    let var99 := if 0 < var99Index then (sortedReturns.getD var99Index 0) * 100 else 0
    let ba : ℚ × ℚ :=
      match benchmarkReturns with
      | some bl =>
        if bl.length = returns.length then
          let benchmarkDecimal := bl.map (· / 100)
          let benchmarkMean := benchmarkDecimal.sum / (benchmarkDecimal.length : ℚ)
          let covarianceO := jsDiv
            (((monthlyReturns.zip benchmarkDecimal).map
              (fun p => (p.1 - meanReturn) * (p.2 - benchmarkMean))).sum) ((n : ℚ) - 1)
          let benchmarkVarianceO := jsDiv
            ((benchmarkDecimal.map (fun r => (r - benchmarkMean) ^ 2)).sum) ((n : ℚ) - 1)
          let beta :=
            match benchmarkVarianceO, covarianceO with
            | some bv, some cv => if 0 < bv then cv / bv else 0
            | _, _ => 0
          (beta, (meanReturn - beta * benchmarkMean) * (periodsPerYear : ℚ) * 100)
        else (0, 0)
      | none => (0, 0)
    ⟨skewness, kurtosis, var95, var99, ba.1, ba.2, frequency.name, periodsPerYear⟩

end PortfolioMetrics

namespace PortfolioOptimizer

/-- Shape of the object a caller-supplied calculateMetrics callback returns:
each metric field may be absent (undefined), modelled by none. -/
structure JsMetrics where
  sharpe : Option ℚ := none
  volatility : Option ℚ := none
  sortino : Option ℚ := none
  cvar : Option ℚ := none

/-- Type of the caller-supplied evaluation callback: it may throw (the error
case of Except) and may return null (the none case of Option). -/
abbrev MetricsCallback := WeightMap → Except Unit (Option JsMetrics)

/-- calculateObjectiveFunction (optimizer source lines 185-209).  The try
block catches any exception thrown by the callback and returns the penalty,
exactly as the inner catch of the source does; a null metrics object takes
the penalty branch of line 190.  Objectives are the source strings, and the
default switch case repeats the sharpe case. -/
def calculateObjectiveFunction (objective : String) (calculateMetrics : MetricsCallback)
    (weights : WeightMap) : ℚ :=
  match calculateMetrics weights with
  | .error _ => if objective = "risk" then 999 else -999
  | .ok none => if objective = "risk" then 999 else -999
  | .ok (some metrics) =>
    if objective = "sharpe" then jsOr metrics.sharpe (-999)
    else if objective = "risk" then -(jsOr metrics.volatility 999)
    else if objective = "sortino" then jsOr metrics.sortino (-999)
    else if objective = "cvar" then -(jsOr (metrics.cvar.map jsAbs) 999)
    else jsOr metrics.sharpe (-999)

/-- isValidWeightAllocation (optimizer source lines 214-220): all weights
nonnegative, all at most 100, and the sum within 0.01 of 100. -/
def isValidWeightAllocation (weights : WeightMap) : Bool :=
  weights.all (fun p => decide (0 ≤ p.2)) &&
  weights.all (fun p => decide (p.2 ≤ 100)) &&
  decide (jsAbs (sumValues weights - 100) < 0.01)

/-- isMetricImprovement (optimizer source lines 225-231): both branches of
the source return newMetric > currentBest. -/
def isMetricImprovement (newMetric currentBest : ℚ) (objective : String) : Bool :=
  if objective = "risk" || objective = "cvar" then decide (currentBest < newMetric)
  else decide (currentBest < newMetric)

/-- calculateGradients (optimizer source lines 149-180): for each asset, find
the first other asset holding at least stepSize, move stepSize from it to the
asset, and take the finite-difference quotient when the move stays valid. -/
def calculateGradients (f : WeightMap → ℚ) (weights : WeightMap) (stepSize : ℚ) :
    List (String × ℚ) :=
  let baseMetric := f weights
  weights.map (fun p =>
    let asset := p.1
    match weights.find? (fun q => decide (q.1 ≠ asset) && decide (stepSize ≤ q.2)) with
    | some q =>
      if wlookup weights asset + stepSize ≤ 100 then
        let perturbed := updateFirst (updateFirst weights asset (fun v => v + stepSize))
          q.1 (fun v => v - stepSize)
        if isValidWeightAllocation perturbed then
          (asset, (f perturbed - baseMetric) / stepSize)
        else (asset, 0)
      else (asset, 0)
    | none => (asset, 0))

/-- Stable insertion into a list sorted by gradient descending; an element is
placed before the first strictly smaller gradient and after equal ones, which
reproduces the stable Array.prototype.sort with comparator b - a. -/
def insertByGradDesc (g : String → ℚ) (a : String) : List String → List String
  | [] => [a]
  | b :: rest => if g b ≤ g a then a :: b :: rest else b :: insertByGradDesc g a rest

/-- Stable sort of asset names by gradient descending. -/
def sortByGradDesc (g : String → ℚ) : List String → List String
  | [] => []
  | a :: rest => insertByGradDesc g a (sortByGradDesc g rest)

/-- Loop state of gradientDescentOptimization: current weights, best weights
and metric seen, cumulative per-asset changes, iteration and stagnation
counters. -/
structure OptState where
  current : WeightMap
  best : WeightMap
  bestMetric : ℚ
  totalChanges : WeightMap
  iteration : ℕ
  stagnation : ℕ

/-- Inner loop over decrease candidates (optimizer source lines 82-108): the
first decrease asset whose paired move passes the turnover, bound, validity
and improvement tests is applied. -/
def tryDecrease (f : WeightMap → ℚ) (objective : String) (stepSize turnoverLimit : ℚ)
    (st : OptState) (asset : String) : List String → Option (String × WeightMap × ℚ)
  | [] => none
  | d :: rest =>
    if jsAbs (wlookup st.totalChanges d) < turnoverLimit ∧ 0 < wlookup st.current d ∧
        0 ≤ wlookup st.current d - stepSize then
      let newWeights := updateFirst (updateFirst st.current asset (fun v => v + stepSize))
        d (fun v => v - stepSize)
      if isValidWeightAllocation newWeights then
        let newMetric := f newWeights
        if isMetricImprovement newMetric st.bestMetric objective then some (d, newWeights, newMetric)
        else tryDecrease f objective stepSize turnoverLimit st asset rest
      else tryDecrease f objective stepSize turnoverLimit st asset rest
    else tryDecrease f objective stepSize turnoverLimit st asset rest

/-- Outer loop over increase candidates (optimizer source lines 77-112). -/
def findMove (f : WeightMap → ℚ) (objective : String) (stepSize turnoverLimit : ℚ)
    (st : OptState) : List String → List String → Option (String × String × WeightMap × ℚ)
  | [], _ => none
  | a :: rest, decreaseAssets =>
    if jsAbs (wlookup st.totalChanges a) < turnoverLimit ∧ wlookup st.current a < 100 ∧
        wlookup st.current a + stepSize ≤ 100 then
      match tryDecrease f objective stepSize turnoverLimit st a decreaseAssets with
      | some (d, nw, nm) => some (a, d, nw, nm)
      | none => findMove f objective stepSize turnoverLimit st rest decreaseAssets
    else findMove f objective stepSize turnoverLimit st rest decreaseAssets

/-- One pass of the while loop body (optimizer source lines 46-119): none
models the two break statements (no gradients, or turnover exhausted), which
leave the state as it stands; otherwise the pass returns the updated state
with the iteration counter advanced. -/
def optStep (f : WeightMap → ℚ) (objective : String) (stepSize turnoverLimit : ℚ)
    (st : OptState) : Option OptState :=
  let gradients := calculateGradients f st.current stepSize
  if gradients.isEmpty then none
  else
    let g := wlookup gradients
    let sortedAssets := sortByGradDesc g (gradients.map Prod.fst)
    let assetsToIncrease := sortedAssets.filter (fun a => decide (0 < g a))
    let assetsToDecrease := sortedAssets.filter (fun a => decide (g a < 0))
    if assetsToIncrease.isEmpty || assetsToDecrease.isEmpty then
      some { st with stagnation := st.stagnation + 1, iteration := st.iteration + 1 }
    else
      let canIncrease := assetsToIncrease.any (fun a =>
        decide (jsAbs (wlookup st.totalChanges a) < turnoverLimit) &&
        decide (wlookup st.current a < 100))
      let canDecrease := assetsToDecrease.any (fun a =>
        decide (jsAbs (wlookup st.totalChanges a) < turnoverLimit) &&
        decide (0 < wlookup st.current a))
      if !canIncrease || !canDecrease then none
      else
        match findMove f objective stepSize turnoverLimit st assetsToIncrease assetsToDecrease with
        | some (a, d, nw, nm) =>
          some { current := nw, best := nw, bestMetric := nm,
                 totalChanges := updateFirst (updateFirst st.totalChanges a (fun v => v + stepSize))
                   d (fun v => v - stepSize),
                 iteration := st.iteration + 1, stagnation := 0 }
        | none =>
          some { st with stagnation := st.stagnation + 1, iteration := st.iteration + 1 }

/-- The while loop (optimizer source line 46), driven by fuel; the loop
condition is iteration < maxIterations and stagnation < maxStagnation, and a
break ends the loop with the state unchanged. -/
def optLoop (f : WeightMap → ℚ) (objective : String) (stepSize turnoverLimit : ℚ)
    (maxIterations maxStagnation : ℕ) : ℕ → OptState → OptState
  | 0, st => st
  | fuel + 1, st =>
    if st.iteration < maxIterations ∧ st.stagnation < maxStagnation then
      match optStep f objective stepSize turnoverLimit st with
      | none => st
      | some st2 => optLoop f objective stepSize turnoverLimit maxIterations maxStagnation fuel st2
    else st

/-- normalizeWeights of the optimizer (source lines 236-270).  Identical to
the standalone normalizer except for the zero-sum branch, which distributes
the equal rounded weight 100 / n to every asset. -/
def normalizeWeights (weights : WeightMap) : WeightMap :=
  let sum := sumValues weights
  if 0 < sum then
    let normalized := weights.map (fun p => (p.1, round1 (p.2 / sum * 100)))
    let normalizedSum := sumValues normalized
    let difference := round1 (100 - normalizedSum)
    if 0 < jsAbs difference then
      match PortfolioMetrics.largestAsset normalized with
      | some k => updateFirst normalized k (fun v => round1 (v + difference))
      | none => normalized
    else normalized
  else
    let equalWeight := round1 (100 / (weights.length : ℚ))
    weights.map (fun p => (p.1, equalWeight))

/-- Result record of gradientDescentOptimization.  In this embedding nothing
inside the try block can throw (callback faults are already caught inside
calculateObjectiveFunction), so the catch branch of lines 132-138 is
unreachable: success is always true and error always none. -/
structure OptResult where
  success : Bool
  weights : WeightMap
  initialMetric : ℚ
  finalMetric : ℚ
  iterations : ℕ
  improvement : ℚ
  error : Option String

/-- gradientDescentOptimization (optimizer source lines 22-139).  stepSize
and maxStagnation are the constructor options (defaults 0.1 and 10);
maxIterations = floor(turnoverLimit / stepSize), nonpositive values giving
zero passes. -/
def gradientDescentOptimization (stepSize : ℚ) (maxStagnation : ℕ) (weights : WeightMap)
    (objective : String) (calculateMetrics : MetricsCallback) (turnoverLimit : ℚ) : OptResult :=
  let f := calculateObjectiveFunction objective calculateMetrics
  let maxIterations : ℕ := (⌊turnoverLimit / stepSize⌋ : ℤ).toNat
  let currentWeights : WeightMap := weights.map (fun p => (p.1, p.2))
  let initialMetric := f currentWeights
  let totalChanges : WeightMap := weights.map (fun p => (p.1, 0))
  let finalState := optLoop f objective stepSize turnoverLimit maxIterations maxStagnation
    maxIterations
    { current := currentWeights, best := currentWeights, bestMetric := initialMetric,
      totalChanges := totalChanges, iteration := 0, stagnation := 0 }
  let finalWeights := normalizeWeights finalState.best
  { success := true, weights := finalWeights, initialMetric := initialMetric,
    finalMetric := finalState.bestMetric, iterations := finalState.iteration,
    improvement := finalState.bestMetric - initialMetric, error := none }

end PortfolioOptimizer

/-! Helper lemmas about the arithmetic primitives. -/

/-- jsAbs coincides with the absolute value. -/
theorem jsAbs_eq_abs (q : ℚ) : jsAbs q = |q| := by
  unfold jsAbs
  split
  · exact (abs_of_neg (by assumption)).symm
  · exact (abs_of_nonneg (le_of_not_lt (by assumption))).symm

/-- jsAbs vanishes only at zero. -/
theorem jsAbs_eq_zero_iff (q : ℚ) : jsAbs q = 0 ↔ q = 0 := by
  rw [jsAbs_eq_abs]; exact abs_eq_zero

/-- round1 is monotone. -/
theorem round1_mono {x y : ℚ} (h : x ≤ y) : round1 x ≤ round1 y := by
  unfold round1
  have hf : ⌊10 * x + 1/2⌋ ≤ ⌊10 * y + 1/2⌋ := Int.floor_mono (by linarith)
  have : ((⌊10 * x + 1/2⌋ : ℤ) : ℚ) ≤ ((⌊10 * y + 1/2⌋ : ℤ) : ℚ) := by exact_mod_cast hf
  linarith

/-- Multiples of one tenth: the values toFixed(1) can produce. -/
def Tenth (x : ℚ) : Prop := ∃ k : ℤ, x = (k : ℚ) / 10

theorem tenth_round1 (x : ℚ) : Tenth (round1 x) := ⟨⌊10 * x + 1/2⌋, rfl⟩

theorem tenth_add {a b : ℚ} (ha : Tenth a) (hb : Tenth b) : Tenth (a + b) := by
  obtain ⟨j, hj⟩ := ha; obtain ⟨k, hk⟩ := hb
  exact ⟨j + k, by rw [hj, hk]; push_cast; ring⟩

theorem tenth_sub {a b : ℚ} (ha : Tenth a) (hb : Tenth b) : Tenth (a - b) := by
  obtain ⟨j, hj⟩ := ha; obtain ⟨k, hk⟩ := hb
  exact ⟨j - k, by rw [hj, hk]; push_cast; ring⟩

theorem tenth_100 : Tenth 100 := ⟨1000, by norm_num⟩

/-- round1 fixes every multiple of one tenth. -/
theorem round1_tenth {x : ℚ} (hx : Tenth x) : round1 x = x := by
  obtain ⟨k, hk⟩ := hx
  subst hk
  unfold round1
  have h1 : (10 : ℚ) * ((k : ℚ) / 10) + 1/2 = (k : ℚ) + 1/2 := by ring
  rw [h1]
  have h2 : ⌊(k : ℚ) + 1/2⌋ = k + ⌊(1 : ℚ)/2⌋ := Int.floor_int_add k (1/2)
  have h3 : ⌊(1 : ℚ)/2⌋ = 0 := by decide
  rw [h2, h3]
  push_cast
  ring

theorem round1_zero : round1 0 = 0 := by decide

theorem round1_100 : round1 100 = 100 := by decide

theorem round1_nonneg {x : ℚ} (h : 0 ≤ x) : 0 ≤ round1 x := by
  have := round1_mono h
  rwa [round1_zero] at this

theorem round1_le_100 {x : ℚ} (h : x ≤ 100) : round1 x ≤ 100 := by
  have := round1_mono h
  rwa [round1_100] at this

/-! Helper lemmas about weight-map primitives. -/

theorem sumValues_nil : sumValues [] = 0 := rfl

theorem sumValues_cons (p : String × ℚ) (rest : WeightMap) :
    sumValues (p :: rest) = p.2 + sumValues rest := by
  simp [sumValues]

/-- Every value of a nonnegative map is at most the total. -/
theorem value_le_sumValues {w : WeightMap} (h0 : ∀ q ∈ w, 0 ≤ q.2) {q : String × ℚ}
    (hq : q ∈ w) : q.2 ≤ sumValues w := by
  induction w with
  | nil => cases hq
  | cons p rest ih =>
    rw [sumValues_cons]
    rcases List.mem_cons.mp hq with hq | hq
    · have : 0 ≤ sumValues rest := by
        have : ∀ x ∈ rest.map Prod.snd, 0 ≤ x := by
          intro x hx
          obtain ⟨r, hr, hrx⟩ := List.mem_map.mp hx
          exact hrx ▸ h0 r (List.mem_cons_of_mem _ hr)
        simpa [sumValues] using List.sum_nonneg this
      simp only [hq]
      linarith
    · have hp : 0 ≤ p.2 := h0 p (List.mem_cons_self _ _)
      have := ih (fun r hr => h0 r (List.mem_cons_of_mem _ hr)) hq
      linarith

/-- Nonnegative values give a nonnegative total. -/
theorem sumValues_nonneg {w : WeightMap} (h0 : ∀ q ∈ w, 0 ≤ q.2) : 0 ≤ sumValues w := by
  have : ∀ x ∈ w.map Prod.snd, 0 ≤ x := by
    intro x hx
    obtain ⟨r, hr, hrx⟩ := List.mem_map.mp hx
    exact hrx ▸ h0 r hr
  simpa [sumValues] using List.sum_nonneg this

theorem tenth_sumValues {w : WeightMap} (hT : ∀ q ∈ w, Tenth q.2) : Tenth (sumValues w) := by
  induction w with
  | nil => exact ⟨0, by norm_num [sumValues]⟩
  | cons p rest ih =>
    rw [sumValues_cons]
    exact tenth_add (hT p (List.mem_cons_self _ _))
      (ih (fun r hr => hT r (List.mem_cons_of_mem _ hr)))

/-- Adding round1 (v + d) at an existing key shifts the total by exactly d
when every stored value and d are multiples of one tenth. -/
theorem sumValues_updateFirst_round1 {l : WeightMap} {k : String} {d : ℚ}
    (hk : k ∈ l.map Prod.fst) (hT : ∀ q ∈ l, Tenth q.2) (hd : Tenth d) :
    sumValues (updateFirst l k (fun v => round1 (v + d))) = sumValues l + d := by
  induction l with
  | nil => cases hk
  | cons p rest ih =>
    unfold updateFirst
    by_cases hpk : p.1 = k
    · rw [if_pos hpk, sumValues_cons, sumValues_cons]
      have : round1 (p.2 + d) = p.2 + d :=
        round1_tenth (tenth_add (hT p (List.mem_cons_self _ _)) hd)
      rw [this]; ring
    · rw [if_neg hpk, sumValues_cons, sumValues_cons]
      have hk2 : k ∈ rest.map Prod.fst := by
        rcases List.mem_map.mp hk with ⟨r, hr, hrk⟩
        rcases List.mem_cons.mp hr with hr | hr
        · exact absurd (hr ▸ hrk) hpk
        · exact List.mem_map.mpr ⟨r, hr, hrk⟩
      rw [ih hk2 (fun r hr => hT r (List.mem_cons_of_mem _ hr))]
      ring

/-- After the remainder adjustment every value stays at most 100, provided
values are nonnegative tenths bounded by 100 and the adjusted total is at
most 100. -/
theorem updateFirst_round1_le {l : WeightMap} {k : String} {d : ℚ}
    (hT : ∀ q ∈ l, Tenth q.2) (h0 : ∀ q ∈ l, 0 ≤ q.2) (h100 : ∀ q ∈ l, q.2 ≤ 100)
    (hd : Tenth d) (hsum : sumValues l + d ≤ 100) :
    ∀ q ∈ updateFirst l k (fun v => round1 (v + d)), q.2 ≤ 100 := by
  induction l with
  | nil => intro q hq; cases hq
  | cons p rest ih =>
    intro q hq
    unfold updateFirst at hq
    by_cases hpk : p.1 = k
    · rw [if_pos hpk] at hq
      rcases List.mem_cons.mp hq with hq | hq
      · have hr1 : round1 (p.2 + d) = p.2 + d :=
          round1_tenth (tenth_add (hT p (List.mem_cons_self _ _)) hd)
        have hrest : 0 ≤ sumValues rest :=
          sumValues_nonneg (fun r hr => h0 r (List.mem_cons_of_mem _ hr))
        rw [sumValues_cons] at hsum
        rw [hq]
        simp only [hr1]
        linarith
      · exact h100 q (List.mem_cons_of_mem _ hq)
    · rw [if_neg hpk] at hq
      rcases List.mem_cons.mp hq with hq | hq
      · exact hq ▸ h100 p (List.mem_cons_self _ _)
      · have hp : 0 ≤ p.2 := h0 p (List.mem_cons_self _ _)
        rw [sumValues_cons] at hsum
        exact ih (fun r hr => hT r (List.mem_cons_of_mem _ hr))
          (fun r hr => h0 r (List.mem_cons_of_mem _ hr))
          (fun r hr => h100 r (List.mem_cons_of_mem _ hr))
          (by linarith) q hq

namespace PortfolioMetrics

/-- Once the largest-weight scan has recorded a candidate it keeps one. -/
theorem largestScan_isSome (l : WeightMap) :
    ∀ acc : Option String × ℚ, acc.1.isSome →
      ((l.foldl (fun acc p => if p.2 > acc.2 then (some p.1, p.2) else acc) acc).1).isSome := by
  induction l with
  | nil => intro acc h; exact h
  | cons p rest ih =>
    intro acc h
    rw [List.foldl_cons]
    by_cases hgt : p.2 > acc.2
    · exact ih _ (by rw [if_pos hgt]; rfl)
    · exact ih _ (by rw [if_neg hgt]; exact h)

/-- On a nonempty map with every value above the initial -1 the scan finds a
largest asset. -/
theorem largestAsset_isSome {l : WeightMap} (hne : l ≠ [])
    (hgt : ∀ q ∈ l, (-1 : ℚ) < q.2) : ∃ k, largestAsset l = some k := by
  obtain ⟨p, rest, rfl⟩ := List.exists_cons_of_ne_nil hne
  unfold largestAsset
  rw [List.foldl_cons]
  have hp : p.2 > -1 := hgt p (List.mem_cons_self _ _)
  have := largestScan_isSome rest ((some p.1, p.2)) rfl
  rw [if_pos hp]
  exact Option.isSome_iff_exists.mp this

/-- The scan only ever records keys of the list or the initial accumulator. -/
theorem largestScan_mem (l : WeightMap) :
    ∀ (acc : Option String × ℚ) (k : String),
      (l.foldl (fun acc p => if p.2 > acc.2 then (some p.1, p.2) else acc) acc).1 = some k →
      acc.1 = some k ∨ k ∈ l.map Prod.fst := by
  induction l with
  | nil => intro acc k h; exact Or.inl h
  | cons p rest ih =>
    intro acc k h
    rw [List.foldl_cons] at h
    by_cases hgt : p.2 > acc.2
    · rw [if_pos hgt] at h
      rcases ih _ k h with h2 | h2
      · have : p.1 = k := Option.some.inj h2
        exact Or.inr (by simp [this])
      · exact Or.inr (by simp [h2])
    · rw [if_neg hgt] at h
      rcases ih _ k h with h2 | h2
      · exact Or.inl h2
      · exact Or.inr (by simp [h2])

/-- The largest asset is a key of the map. -/
theorem largestAsset_mem {l : WeightMap} {k : String} (h : largestAsset l = some k) :
    k ∈ l.map Prod.fst := by
  unfold largestAsset at h
  rcases largestScan_mem l ((none : Option String), (-1 : ℚ)) k h with h2 | h2
  · cases h2
  · exact h2

end PortfolioMetrics

namespace PortfolioOptimizer

/-- The positive-sum branch of the optimizer normalizer: for a nonempty map
of nonnegative weights with positive sum, the output sums to exactly 100 and
no weight exceeds 100. -/
theorem normalizeWeights_of_pos {w : WeightMap} (h0 : ∀ q ∈ w, 0 ≤ q.2)
    (hs : 0 < sumValues w) :
    sumValues (normalizeWeights w) = 100 ∧ ∀ q ∈ normalizeWeights w, q.2 ≤ 100 := by
  have hne : w ≠ [] := by
    intro h; rw [h, sumValues_nil] at hs; exact lt_irrefl 0 hs
  unfold normalizeWeights
  rw [if_pos hs]
  dsimp only
  set normalized := w.map (fun p => (p.1, round1 (p.2 / sumValues w * 100))) with hnorm
  have hmem : ∀ q ∈ normalized, 0 ≤ q.2 ∧ q.2 ≤ 100 ∧ Tenth q.2 := by
    intro q hq
    obtain ⟨p, hp, hpq⟩ := List.mem_map.mp hq
    have hp0 : 0 ≤ p.2 := h0 p hp
    have hple : p.2 ≤ sumValues w := value_le_sumValues h0 hp
    have hval0 : 0 ≤ p.2 / sumValues w * 100 := by positivity
    have hval100 : p.2 / sumValues w * 100 ≤ 100 := by
      have : p.2 / sumValues w ≤ 1 := (div_le_one hs).mpr hple
      linarith
    refine hpq ▸ ⟨round1_nonneg hval0, round1_le_100 hval100, tenth_round1 _⟩
  have hT : ∀ q ∈ normalized, Tenth q.2 := fun q hq => (hmem q hq).2.2
  have hS : Tenth (sumValues normalized) := tenth_sumValues hT
  have hdiff : round1 (100 - sumValues normalized) = 100 - sumValues normalized :=
    round1_tenth (tenth_sub tenth_100 hS)
  by_cases habs : 0 < jsAbs (round1 (100 - sumValues normalized))
  · rw [if_pos habs]
    have hnne : normalized ≠ [] := by
      intro h
      exact hne (List.map_eq_nil_iff.mp (hnorm ▸ h))
    obtain ⟨k, hk⟩ := PortfolioMetrics.largestAsset_isSome hnne
      (fun q hq => lt_of_lt_of_le (by norm_num) (hmem q hq).1)
    rw [hk]
    have hkm := PortfolioMetrics.largestAsset_mem hk
    have hTd : Tenth (round1 (100 - sumValues normalized)) := tenth_round1 _
    constructor
    · rw [sumValues_updateFirst_round1 hkm hT hTd, hdiff]
      ring
    · apply updateFirst_round1_le hT (fun q hq => (hmem q hq).1) (fun q hq => (hmem q hq).2.1) hTd
      rw [hdiff]
      linarith
  · rw [if_neg habs]
    have hnn : 0 ≤ jsAbs (round1 (100 - sumValues normalized)) := by
      rw [jsAbs_eq_abs]; exact abs_nonneg _
    have hz0 : jsAbs (round1 (100 - sumValues normalized)) = 0 := by
      linarith [le_of_not_lt habs]
    have hz : round1 (100 - sumValues normalized) = 0 := (jsAbs_eq_zero_iff _).mp hz0
    rw [hdiff] at hz
    have hsum100 : sumValues normalized = 100 := by linarith
    exact ⟨hsum100, fun q hq => (hmem q hq).2.1⟩

end PortfolioOptimizer

/-- On every weight map with positive sum the standalone normalizer of
portfolio-metrics.js and the optimizer-embedded normalizer coincide: their
positive-sum branches are the same computation. -/
theorem normalize_eq_of_pos {w : WeightMap} (hs : 0 < sumValues w) :
    PortfolioMetrics.normalizeWeights w = PortfolioOptimizer.normalizeWeights w := by
  unfold PortfolioMetrics.normalizeWeights PortfolioOptimizer.normalizeWeights
  rw [if_pos hs, if_pos hs]

namespace PortfolioOptimizer

/-- Unpacking a successful validity test. -/
theorem isValid_dest {w : WeightMap} (h : isValidWeightAllocation w = true) :
    (∀ q ∈ w, 0 ≤ q.2) ∧ (∀ q ∈ w, q.2 ≤ 100) ∧ jsAbs (sumValues w - 100) < 0.01 := by
  unfold isValidWeightAllocation at h
  simp only [Bool.and_eq_true, List.all_eq_true, decide_eq_true_eq] at h
  exact ⟨h.1.1, h.1.2, h.2⟩

/-- A valid allocation has positive total weight. -/
theorem isValid_sum_pos {w : WeightMap} (h : isValidWeightAllocation w = true) :
    0 < sumValues w := by
  have h3 := (isValid_dest h).2.2
  rw [jsAbs_eq_abs, abs_lt] at h3
  linarith [h3.1]

/-- Both branches of isMetricImprovement are the strict comparison. -/
theorem isMetricImprovement_eq {nm b : ℚ} {o : String} :
    isMetricImprovement nm b o = true ↔ b < nm := by
  unfold isMetricImprovement
  split <;> simp

/-- Any move accepted by the inner scan is a valid allocation whose metric
strictly beats the best so far. -/
theorem tryDecrease_sound {f : WeightMap → ℚ} {obj : String} {step turn : ℚ} {st : OptState}
    {asset : String} : ∀ {l : List String} {d : String} {nw : WeightMap} {nm : ℚ},
    tryDecrease f obj step turn st asset l = some (d, nw, nm) →
    isValidWeightAllocation nw = true ∧ nm = f nw ∧ st.bestMetric < nm := by
  intro l
  induction l with
  | nil => intro d nw nm h; cases h
  | cons x rest ih =>
    intro d nw nm h
    rw [tryDecrease] at h
    dsimp only at h
    split_ifs at h with h1 h2 h3
    · simp only [Option.some.injEq, Prod.mk.injEq] at h
      obtain ⟨-, h5, h6⟩ := h
      subst h5; subst h6
      exact ⟨h2, rfl, isMetricImprovement_eq.mp h3⟩
    · exact ih h
    · exact ih h
    · exact ih h

/-- Any move accepted by the outer scan is a valid allocation whose metric
strictly beats the best so far. -/
theorem findMove_sound {f : WeightMap → ℚ} {obj : String} {step turn : ℚ} {st : OptState} :
    ∀ {inc dec : List String} {a d : String} {nw : WeightMap} {nm : ℚ},
    findMove f obj step turn st inc dec = some (a, d, nw, nm) →
    isValidWeightAllocation nw = true ∧ nm = f nw ∧ st.bestMetric < nm := by
  intro inc
  induction inc with
  | nil => intro dec a d nw nm h; cases h
  | cons x rest ih =>
    intro dec a d nw nm h
    rw [findMove] at h
    split_ifs at h with h1
    · cases htd : tryDecrease f obj step turn st x dec with
      | none => rw [htd] at h; exact ih h
      | some v =>
        obtain ⟨d2, nw2, nm2⟩ := v
        rw [htd] at h
        simp only [Option.some.injEq, Prod.mk.injEq] at h
        obtain ⟨-, -, h5, h6⟩ := h
        subst h5; subst h6
        exact tryDecrease_sound htd
    · exact ih h

/-- A pass of the loop either leaves the best pair unchanged or replaces it
with a valid allocation of strictly larger metric. -/
theorem optStep_spec {f : WeightMap → ℚ} {obj : String} {step turn : ℚ} {st st2 : OptState}
    (h : optStep f obj step turn st = some st2) :
    (st2.best = st.best ∧ st2.bestMetric = st.bestMetric) ∨
    (isValidWeightAllocation st2.best = true ∧ st.bestMetric < st2.bestMetric) := by
  unfold optStep at h
  dsimp only at h
  split_ifs at h with hg hie hcan
  · cases h
    exact Or.inl ⟨rfl, rfl⟩
  · cases hfm : findMove f obj step turn st
        ((sortByGradDesc (wlookup (calculateGradients f st.current step))
          ((calculateGradients f st.current step).map Prod.fst)).filter
          (fun a => decide (0 < wlookup (calculateGradients f st.current step) a)))
        ((sortByGradDesc (wlookup (calculateGradients f st.current step))
          ((calculateGradients f st.current step).map Prod.fst)).filter
          (fun a => decide (wlookup (calculateGradients f st.current step) a < 0))) with
    | none =>
      rw [hfm] at h
      simp only [Option.some.injEq] at h
      subst h
      exact Or.inl ⟨rfl, rfl⟩
    | some v =>
      obtain ⟨a, d, nw, nm⟩ := v
      rw [hfm] at h
      simp only [Option.some.injEq] at h
      subst h
      have hs := findMove_sound hfm
      exact Or.inr ⟨hs.1, hs.2.2⟩

/-- Along the loop the best weights stay nonnegative with positive sum, since
they are only ever replaced by allocations that pass the validity test. -/
theorem optLoop_best_inv (f : WeightMap → ℚ) (obj : String) (step turn : ℚ)
    (mi ms : ℕ) : ∀ (fuel : ℕ) (st : OptState), (∀ q ∈ st.best, 0 ≤ q.2) →
    0 < sumValues st.best →
    (∀ q ∈ (optLoop f obj step turn mi ms fuel st).best, 0 ≤ q.2) ∧
    0 < sumValues (optLoop f obj step turn mi ms fuel st).best := by
  intro fuel
  induction fuel with
  | zero => intro st h0 hs; exact ⟨h0, hs⟩
  | succ n ih =>
    intro st h0 hs
    rw [optLoop]
    split_ifs with hcond
    · cases hstep : optStep f obj step turn st with
      | none => exact ⟨h0, hs⟩
      | some st2 =>
        rcases optStep_spec hstep with ⟨hb, -⟩ | ⟨hv, -⟩
        · exact ih st2 (hb ▸ h0) (hb ▸ hs)
        · exact ih st2 (isValid_dest hv).1 (isValid_sum_pos hv)
    · exact ⟨h0, hs⟩

/-- The best metric never decreases along the loop. -/
theorem optLoop_metric_mono (f : WeightMap → ℚ) (obj : String) (step turn : ℚ)
    (mi ms : ℕ) : ∀ (fuel : ℕ) (st : OptState),
    st.bestMetric ≤ (optLoop f obj step turn mi ms fuel st).bestMetric := by
  intro fuel
  induction fuel with
  | zero => intro st; exact le_refl _
  | succ n ih =>
    intro st
    rw [optLoop]
    split_ifs with hcond
    · cases hstep : optStep f obj step turn st with
      | none => exact le_refl _
      | some st2 =>
        rcases optStep_spec hstep with ⟨-, hm⟩ | ⟨-, hm⟩
        · exact le_trans (le_of_eq hm.symm) (ih st2)
        · exact le_trans (le_of_lt hm) (ih st2)
    · exact le_refl _

/-- The identity copy of a weight map taken on entry. -/
theorem map_copy_eq (w : WeightMap) : w.map (fun p => (p.1, p.2)) = w := by
  have : (fun p : String × ℚ => (p.1, p.2)) = id := rfl
  rw [this, List.map_id]

end PortfolioOptimizer

/-! Claim C1. -/

/-- C1, counterexample: the claim fails exactly at its own quoted edge case.
For the all-zero three-asset map the optimizer succeeds and returns equal
rounded weights 33.3, whose sum 99.9 misses 100 by 0.1, far outside the 0.01
tolerance of the validity predicate; and for an input holding a negative
weight the returned map retains the out-of-bounds weight -50. -/
theorem claim1_counterexample :
    (PortfolioOptimizer.gradientDescentOptimization 0.1 10 [("A", 0), ("B", 0), ("C", 0)]
      "sharpe" (fun _ => .ok (some { sharpe := some 1 })) 0.1).success = true ∧
    (PortfolioOptimizer.gradientDescentOptimization 0.1 10 [("A", 0), ("B", 0), ("C", 0)]
      "sharpe" (fun _ => .ok (some { sharpe := some 1 })) 0.1).weights
      = [("A", 33.3), ("B", 33.3), ("C", 33.3)] ∧
    0.01 < jsAbs (sumValues
      (PortfolioOptimizer.gradientDescentOptimization 0.1 10 [("A", 0), ("B", 0), ("C", 0)]
        "sharpe" (fun _ => .ok (some { sharpe := some 1 })) 0.1).weights - 100) ∧
    (PortfolioOptimizer.gradientDescentOptimization 0.1 10 [("A", -50), ("B", 150)]
      "sharpe" (fun _ => .ok (some { sharpe := some 1 })) 0.1).weights
      = [("A", -50), ("B", 150)] := by
  refine ⟨by decide, by decide, by decide, by decide⟩

/-- C1, amended: when the initial weights are nonnegative with positive sum,
gradientDescentOptimization returns success with weights that sum to exactly
100 (hence within any tolerance) and never exceed 100 individually; the
all-zero and negative-weight edge cases of the original claim are excluded,
and the lower bound 0 is not guaranteed by the normalizer in general. -/
theorem claim1_amended (stepSize : ℚ) (maxStagnation : ℕ) (weights : WeightMap)
    (objective : String) (cb : PortfolioOptimizer.MetricsCallback) (turnoverLimit : ℚ)
    (h0 : ∀ q ∈ weights, 0 ≤ q.2) (hs : 0 < sumValues weights) :
    (PortfolioOptimizer.gradientDescentOptimization stepSize maxStagnation weights objective cb
      turnoverLimit).success = true ∧
    sumValues (PortfolioOptimizer.gradientDescentOptimization stepSize maxStagnation weights
      objective cb turnoverLimit).weights = 100 ∧
    ∀ q ∈ (PortfolioOptimizer.gradientDescentOptimization stepSize maxStagnation weights
      objective cb turnoverLimit).weights, q.2 ≤ 100 := by
  refine ⟨rfl, ?_⟩
  unfold PortfolioOptimizer.gradientDescentOptimization
  dsimp only
  have hbest := PortfolioOptimizer.optLoop_best_inv
    (PortfolioOptimizer.calculateObjectiveFunction objective cb) objective stepSize
    turnoverLimit ((⌊turnoverLimit / stepSize⌋ : ℤ).toNat) maxStagnation
    ((⌊turnoverLimit / stepSize⌋ : ℤ).toNat)
    { current := weights.map (fun p => (p.1, p.2)),
      best := weights.map (fun p => (p.1, p.2)),
      bestMetric := PortfolioOptimizer.calculateObjectiveFunction objective cb
        (weights.map (fun p => (p.1, p.2))),
      totalChanges := weights.map (fun p => (p.1, 0)),
      iteration := 0, stagnation := 0 }
    (by
      show ∀ q ∈ weights.map (fun p => (p.1, p.2)), 0 ≤ q.2
      rw [PortfolioOptimizer.map_copy_eq]
      exact h0)
    (by
      show 0 < sumValues (weights.map (fun p => (p.1, p.2)))
      rw [PortfolioOptimizer.map_copy_eq]
      exact hs)
  exact PortfolioOptimizer.normalizeWeights_of_pos hbest.1 hbest.2

/-- C1, witness: the amended theorem applied to the concrete two-asset map
with weights 50 and 50. -/
theorem claim1_witness :
    (∀ q ∈ ([("A", 50), ("B", 50)] : WeightMap), 0 ≤ q.2) ∧
    (0 < sumValues [("A", 50), ("B", 50)]) ∧
    ((PortfolioOptimizer.gradientDescentOptimization 0.1 10 [("A", 50), ("B", 50)] "sharpe"
      (fun _ => .ok (some { sharpe := some 1 })) 0.1).success = true ∧
    sumValues (PortfolioOptimizer.gradientDescentOptimization 0.1 10 [("A", 50), ("B", 50)]
      "sharpe" (fun _ => .ok (some { sharpe := some 1 })) 0.1).weights = 100 ∧
    ∀ q ∈ (PortfolioOptimizer.gradientDescentOptimization 0.1 10 [("A", 50), ("B", 50)]
      "sharpe" (fun _ => .ok (some { sharpe := some 1 })) 0.1).weights, q.2 ≤ 100) :=
  ⟨by decide, by decide,
    claim1_amended 0.1 10 [("A", 50), ("B", 50)] "sharpe"
      (fun _ => .ok (some { sharpe := some 1 })) 0.1 (by decide) (by decide)⟩

/-! Claim C2. -/

/-- C2, counterexample: with a callback that always throws, the optimizer
does not return success=false with an error; the exception is absorbed
further down, the run completes normally, success is true and error is
absent. -/
theorem claim2_counterexample :
    (PortfolioOptimizer.gradientDescentOptimization 0.1 10 [("A", 100)] "sharpe"
      (fun _ => .error ()) 1).success = true ∧
    (PortfolioOptimizer.gradientDescentOptimization 0.1 10 [("A", 100)] "sharpe"
      (fun _ => .error ()) 1).error = none ∧
    ¬ ((PortfolioOptimizer.gradientDescentOptimization 0.1 10 [("A", 100)] "sharpe"
      (fun _ => .error ()) 1).success = false) := by
  refine ⟨by decide, by decide, by decide⟩

/-- C2, amended: an exception thrown by the evaluation callback never
propagates to the caller, but it is caught inside calculateObjectiveFunction
(not at the optimizer boundary) and converted to the signed penalty value
(999 under the risk objective, -999 otherwise); the optimization then
completes with success=true and no error field, for every input. -/
theorem claim2_amended (stepSize : ℚ) (maxStagnation : ℕ) (weights : WeightMap)
    (objective : String) (turnoverLimit : ℚ) :
    (PortfolioOptimizer.gradientDescentOptimization stepSize maxStagnation weights objective
      (fun _ => .error ()) turnoverLimit).success = true ∧
    (PortfolioOptimizer.gradientDescentOptimization stepSize maxStagnation weights objective
      (fun _ => .error ()) turnoverLimit).error = none ∧
    ∀ w : WeightMap, PortfolioOptimizer.calculateObjectiveFunction objective
      (fun _ => .error ()) w = if objective = "risk" then 999 else -999 :=
  ⟨rfl, rfl, fun _ => rfl⟩

/-! Claim C10. -/

/-- C10, the evaluation callback of the counterexample: a metric landscape
peaked at the off-grid allocation (50.15, 49.85), with the rounded allocation
(50.1, 49.9) scoring worse than everything nearby. -/
def cbPeakC10 : PortfolioOptimizer.MetricsCallback := fun w =>
  .ok (some { sharpe := some (
    if w = [("A", 50.15), ("B", 49.85)] then 10
    else if w = [("A", 50.05), ("B", 49.95)] then 1
    else if w = [("A", 50.1), ("B", 49.9)] then -5
    else -1) })

/-- C10, first run of the counterexample, from the off-grid start. -/
def run1C10 : PortfolioOptimizer.OptResult :=
  PortfolioOptimizer.gradientDescentOptimization 0.1 10 [("A", 50.05), ("B", 49.95)]
    "sharpe" cbPeakC10 0.1

/-- C10, second run of the counterexample, started from the weights the
first run returned, with the same turnover limit and callback. -/
def run2C10 : PortfolioOptimizer.OptResult :=
  PortfolioOptimizer.gradientDescentOptimization 0.1 10 run1C10.weights
    "sharpe" cbPeakC10 0.1

/-- C10, counterexample: the first run reaches metric 10 at (50.15, 49.85)
but returns the rounded weights (50.1, 49.9); the second run starts there,
scores -5, finds no improving move inside its turnover budget, and ends with
finalMetric -5 < 10: chaining runs is not monotone. -/
theorem claim10_counterexample :
    run1C10.success = true ∧ run2C10.success = true ∧
    run1C10.weights = [("A", 50.1), ("B", 49.9)] ∧
    run1C10.finalMetric = 10 ∧ run2C10.finalMetric = -5 ∧
    run2C10.finalMetric < run1C10.finalMetric := by
  refine ⟨by decide, by decide, by decide, by decide, by decide, by decide⟩

/-- C10, amended: within a single run the final metric never falls below the
initial metric, for every starting weight map, objective, callback, step
size, stagnation bound and turnover limit; the cross-run monotonicity of the
original claim fails because the returned weights are a rounded
normalization of the internal best weights. -/
theorem claim10_amended (stepSize : ℚ) (maxStagnation : ℕ) (weights : WeightMap)
    (objective : String) (cb : PortfolioOptimizer.MetricsCallback) (turnoverLimit : ℚ) :
    (PortfolioOptimizer.gradientDescentOptimization stepSize maxStagnation weights objective cb
      turnoverLimit).initialMetric ≤
    (PortfolioOptimizer.gradientDescentOptimization stepSize maxStagnation weights objective cb
      turnoverLimit).finalMetric := by
  unfold PortfolioOptimizer.gradientDescentOptimization
  dsimp only
  exact PortfolioOptimizer.optLoop_metric_mono
    (PortfolioOptimizer.calculateObjectiveFunction objective cb) objective stepSize
    turnoverLimit ((⌊turnoverLimit / stepSize⌋ : ℤ).toNat) maxStagnation
    ((⌊turnoverLimit / stepSize⌋ : ℤ).toNat)
    { current := weights.map (fun p => (p.1, p.2)),
      best := weights.map (fun p => (p.1, p.2)),
      bestMetric := PortfolioOptimizer.calculateObjectiveFunction objective cb
        (weights.map (fun p => (p.1, p.2))),
      totalChanges := weights.map (fun p => (p.1, 0)),
      iteration := 0, stagnation := 0 }

/-! Claim C3. -/

/-- C3, counterexample: a defined metric value of 0 is not mapped by the
formula but replaced by the penalty, because the fallback uses JavaScript
truthiness: with sharpe = 0 the sharpe objective evaluates to -999 instead of
0, and with volatility = 0 the risk objective evaluates to -999 instead of
-0 = 0. -/
theorem claim3_counterexample :
    PortfolioOptimizer.calculateObjectiveFunction "sharpe"
      (fun _ => .ok (some { sharpe := some 0 })) [("A", 100)] = -999 ∧
    PortfolioOptimizer.calculateObjectiveFunction "sharpe"
      (fun _ => .ok (some { sharpe := some 0 })) [("A", 100)] ≠ 0 ∧
    PortfolioOptimizer.calculateObjectiveFunction "risk"
      (fun _ => .ok (some { volatility := some 0 })) [("A", 100)] = -999 ∧
    PortfolioOptimizer.calculateObjectiveFunction "cvar"
      (fun _ => .ok (some { cvar := some 0 })) [("A", 100)] = -999 := by
  refine ⟨by decide, by decide, by decide, by decide⟩

/-- C3, amended: the objective mapping follows the stated formulas only for
defined and nonzero metric values (sharpe maps to metrics.sharpe, risk to
minus volatility, sortino to metrics.sortino, cvar to minus the absolute
cvar); a missing metric field or a metric value equal to 0 (JavaScript
falsy) is replaced by the penalty -999, and a null metrics object gives -999
except under the risk objective, where it gives +999. -/
theorem claim3_amended (m : PortfolioOptimizer.JsMetrics) (w : WeightMap) :
    (∀ s, m.sharpe = some s → s ≠ 0 →
      PortfolioOptimizer.calculateObjectiveFunction "sharpe" (fun _ => .ok (some m)) w = s) ∧
    (∀ v, m.volatility = some v → v ≠ 0 →
      PortfolioOptimizer.calculateObjectiveFunction "risk" (fun _ => .ok (some m)) w = -v) ∧
    (∀ s, m.sortino = some s → s ≠ 0 →
      PortfolioOptimizer.calculateObjectiveFunction "sortino" (fun _ => .ok (some m)) w = s) ∧
    (∀ c, m.cvar = some c → c ≠ 0 →
      PortfolioOptimizer.calculateObjectiveFunction "cvar" (fun _ => .ok (some m)) w = -|c|) ∧
    (m.sharpe = none ∨ m.sharpe = some 0 →
      PortfolioOptimizer.calculateObjectiveFunction "sharpe" (fun _ => .ok (some m)) w = -999) ∧
    (m.volatility = none ∨ m.volatility = some 0 →
      PortfolioOptimizer.calculateObjectiveFunction "risk" (fun _ => .ok (some m)) w = -999) ∧
    (m.sortino = none ∨ m.sortino = some 0 →
      PortfolioOptimizer.calculateObjectiveFunction "sortino" (fun _ => .ok (some m)) w = -999) ∧
    (m.cvar = none ∨ m.cvar = some 0 →
      PortfolioOptimizer.calculateObjectiveFunction "cvar" (fun _ => .ok (some m)) w = -999) ∧
    (PortfolioOptimizer.calculateObjectiveFunction "risk" (fun _ => .ok none) w = 999) ∧
    (PortfolioOptimizer.calculateObjectiveFunction "sharpe" (fun _ => .ok none) w = -999) := by
  refine ⟨?_, ?_, ?_, ?_, ?_, ?_, ?_, ?_, rfl, rfl⟩
  · intro s hs hs0
    show jsOr m.sharpe (-999) = s
    rw [hs]
    simp [jsOr, hs0]
  · intro v hv hv0
    show -(jsOr m.volatility 999) = -v
    rw [hv]
    simp [jsOr, hv0]
  · intro s hs hs0
    show jsOr m.sortino (-999) = s
    rw [hs]
    simp [jsOr, hs0]
  · intro c hc hc0
    show -(jsOr (m.cvar.map jsAbs) 999) = -|c|
    rw [hc]
    simp [jsOr, jsAbs_eq_abs, abs_eq_zero, hc0]
  · rintro (hs | hs) <;>
      · show jsOr m.sharpe (-999) = -999
        rw [hs]
        simp [jsOr]
  · rintro (hv | hv) <;>
      · show -(jsOr m.volatility 999) = -999
        rw [hv]
        simp [jsOr]
  · rintro (hs | hs) <;>
      · show jsOr m.sortino (-999) = -999
        rw [hs]
        simp [jsOr]
  · rintro (hc | hc) <;>
      · show -(jsOr (m.cvar.map jsAbs) 999) = -999
        rw [hc]
        simp [jsOr, jsAbs]

/-- C3, witness: the amended mapping applied to a concrete metrics object
with sharpe 2, volatility 3, sortino 4 and cvar -5. -/
theorem claim3_witness :
    PortfolioOptimizer.calculateObjectiveFunction "sharpe"
      (fun _ => .ok (some ⟨some 2, some 3, some 4, some (-5)⟩)) [("A", 100)] = 2 ∧
    PortfolioOptimizer.calculateObjectiveFunction "risk"
      (fun _ => .ok (some ⟨some 2, some 3, some 4, some (-5)⟩)) [("A", 100)] = -3 ∧
    PortfolioOptimizer.calculateObjectiveFunction "cvar"
      (fun _ => .ok (some ⟨some 2, some 3, some 4, some (-5)⟩)) [("A", 100)] = -|(-5 : ℚ)| :=
  ⟨(claim3_amended ⟨some 2, some 3, some 4, some (-5)⟩ [("A", 100)]).1 2 rfl (by norm_num),
   (claim3_amended ⟨some 2, some 3, some 4, some (-5)⟩ [("A", 100)]).2.1 3 rfl (by norm_num),
   (claim3_amended ⟨some 2, some 3, some 4, some (-5)⟩ [("A", 100)]).2.2.2.1 (-5) rfl
     (by norm_num)⟩

/-! Claim C4. -/

/-- C4, counterexample: on the zero-sum map the two normalizers differ, so
they are not equivalent for every weight map: the standalone normalizer of
portfolio-metrics.js has no equal-distribution branch and returns the input
unchanged, while the optimizer-embedded one distributes 100 over the single
asset. -/
theorem claim4_counterexample :
    PortfolioMetrics.normalizeWeights [("A", 0)] = [("A", 0)] ∧
    PortfolioOptimizer.normalizeWeights [("A", 0)] = [("A", 100)] ∧
    PortfolioMetrics.normalizeWeights [("A", 0)] ≠
      PortfolioOptimizer.normalizeWeights [("A", 0)] := by
  refine ⟨by decide, by decide, by decide⟩

/-- C4, amended: the standalone Weight Normalizer and the optimizer-embedded
normalizer produce identical results for every weight map whose values sum
to a positive number; they differ exactly on the nonpositive-sum inputs,
where only the embedded version distributes weight equally. -/
theorem claim4_amended (w : WeightMap) (hs : 0 < sumValues w) :
    PortfolioMetrics.normalizeWeights w = PortfolioOptimizer.normalizeWeights w :=
  normalize_eq_of_pos hs

/-- C4, witness: the two normalizers agree on the concrete map with weights
60 and 40. -/
theorem claim4_witness :
    (0 < sumValues [("A", 60), ("B", 40)]) ∧
    PortfolioMetrics.normalizeWeights [("A", 60), ("B", 40)] =
      PortfolioOptimizer.normalizeWeights [("A", 60), ("B", 40)] :=
  ⟨by decide, claim4_amended [("A", 60), ("B", 40)] (by decide)⟩

/-! Claim C5. -/

/-- C5, counterexample: with no precondition on the input the Normalizer
invariant fails.  A map holding a negative weight passes through the
positive-sum branch unrepaired, leaving -50 outside the range, and the
all-zero map is returned unchanged by the standalone normalizer, so its sum
0 is not within 0.05 of 100. -/
theorem claim5_counterexample :
    PortfolioMetrics.normalizeWeights [("A", -50), ("B", 150)] = [("A", -50), ("B", 150)] ∧
    ((PortfolioMetrics.normalizeWeights [("A", -50), ("B", 150)]).any
      (fun q => decide (q.2 < 0))) = true ∧
    sumValues (PortfolioMetrics.normalizeWeights [("A", 0), ("B", 0), ("C", 0)]) = 0 ∧
    0.05 < jsAbs (sumValues
      (PortfolioMetrics.normalizeWeights [("A", 0), ("B", 0), ("C", 0)]) - 100) := by
  refine ⟨by decide, by decide, by decide, by decide⟩

/-- C5, amended: for every weight map with nonnegative values and positive
sum, the standalone Weight Normalizer returns weights that sum to exactly
100 (so certainly within 0.05) and that never exceed 100; zero-sum inputs
are returned unchanged and negative inputs can pass through, so the original
unconditional claim is restricted to nonnegative, positive-sum inputs, and
the individual lower bound 0 is not part of the amended guarantee. -/
theorem claim5_amended (w : WeightMap) (h0 : ∀ q ∈ w, 0 ≤ q.2) (hs : 0 < sumValues w) :
    sumValues (PortfolioMetrics.normalizeWeights w) = 100 ∧
    ∀ q ∈ PortfolioMetrics.normalizeWeights w, q.2 ≤ 100 := by
  rw [normalize_eq_of_pos hs]
  exact PortfolioOptimizer.normalizeWeights_of_pos h0 hs

/-- C5, witness: the amended invariant at the concrete map with weights 30
and 30, which the normalizer rescales to 50 and 50. -/
theorem claim5_witness :
    (∀ q ∈ ([("A", 30), ("B", 30)] : WeightMap), 0 ≤ q.2) ∧
    (0 < sumValues [("A", 30), ("B", 30)]) ∧
    (sumValues (PortfolioMetrics.normalizeWeights [("A", 30), ("B", 30)]) = 100 ∧
    ∀ q ∈ PortfolioMetrics.normalizeWeights [("A", 30), ("B", 30)], q.2 ≤ 100) :=
  ⟨by decide, by decide, claim5_amended [("A", 30), ("B", 30)] (by decide) (by decide)⟩

/-! Claim C7. -/

/-- The loop of calculateCumulativeReturns as a function of the number of
processed indices, for reasoning by induction; calculateCumulativeReturns
runs it over all indices. -/
def cumulFold (returns : List ℚ) (n : ℕ) : ℚ × List ℚ :=
  (List.range n).foldl
    (fun (st : ℚ × List ℚ) i =>
      if i = 0 then (st.1, st.2 ++ [0])
      else
        let c := PortfolioMetrics.cumStep st.1 (returns.getD (i - 1) 0)
        (c, st.2 ++ [c]))
    (0, [])

/-- calculateCumulativeReturns is the second component of the full fold. -/
theorem calculateCumulativeReturns_eq (returns : List ℚ) :
    PortfolioMetrics.calculateCumulativeReturns returns =
      if returns.isEmpty then [] else (cumulFold returns returns.length).2 := rfl

/-- Unrolling one step of the cumulative fold. -/
theorem cumulFold_succ (returns : List ℚ) (n : ℕ) :
    cumulFold returns (n + 1) =
      (if n = 0 then ((cumulFold returns n).1, (cumulFold returns n).2 ++ [0])
      else
        let c := PortfolioMetrics.cumStep (cumulFold returns n).1 (returns.getD (n - 1) 0)
        (c, (cumulFold returns n).2 ++ [c])) := by
  unfold cumulFold
  rw [List.range_succ, List.foldl_append, List.foldl_cons, List.foldl_nil]

/-- The last entry of a one-element extension. -/
theorem getD_concat_self (l : List ℚ) (c : ℚ) : (l ++ [c]).getD l.length 0 = c := by
  rw [List.getD_eq_getElem?_getD, List.getElem?_concat_length]
  rfl

/-- Invariant of the cumulative fold: the accumulated list has one entry per
processed index, entry 0 is 0, entry i chains entry i-1 with returns[i-1],
and the running cumulative variable equals the last entry. -/
theorem cumulFold_spec (r : List ℚ) : ∀ n : ℕ,
    (cumulFold r n).2.length = n ∧
    (∀ i, i < n → (cumulFold r n).2.getD i 0 =
      (if i = 0 then 0
       else PortfolioMetrics.cumStep ((cumulFold r n).2.getD (i - 1) 0) (r.getD (i - 1) 0))) ∧
    (1 ≤ n → (cumulFold r n).1 = (cumulFold r n).2.getD (n - 1) 0) := by
  intro n
  induction n with
  | zero =>
    refine ⟨rfl, ?_, ?_⟩
    · intro i hi; cases hi
    · intro h; cases h
  | succ n ih =>
    obtain ⟨hl, hrec, hlast⟩ := ih
    rw [cumulFold_succ]
    by_cases hn : n = 0
    · subst hn
      rw [if_pos rfl]
      have h2 : (cumulFold r 0).2 = [] := List.length_eq_zero.mp hl
      refine ⟨by simp [h2], ?_, ?_⟩
      · intro i hi
        interval_cases i
        simp [h2]
      · intro h
        simp [h2]
        rfl
    · rw [if_neg hn]
      dsimp only
      have h1n : 1 ≤ n := Nat.one_le_iff_ne_zero.mpr hn
      have hgd : ∀ j, j < n →
          ((cumulFold r n).2 ++
            [PortfolioMetrics.cumStep (cumulFold r n).1 (r.getD (n - 1) 0)]).getD j 0 =
          (cumulFold r n).2.getD j 0 := by
        intro j hj
        rw [List.getD_append]
        omega
      have hend : ((cumulFold r n).2 ++
          [PortfolioMetrics.cumStep (cumulFold r n).1 (r.getD (n - 1) 0)]).getD n 0 =
          PortfolioMetrics.cumStep (cumulFold r n).1 (r.getD (n - 1) 0) := by
        have h5 := getD_concat_self ((cumulFold r n).2)
          (PortfolioMetrics.cumStep (cumulFold r n).1 (r.getD (n - 1) 0))
        rwa [hl] at h5
      constructor
      · simp [hl]
      constructor
      · intro i hi
        rcases Nat.lt_succ_iff_lt_or_eq.mp hi with hi2 | hi2
        · rw [hgd i hi2]
          rcases Nat.eq_zero_or_pos i with hi0 | hi0
          · rw [hrec i hi2]
            simp [hi0]
          · have hi1 : i - 1 < n := by omega
            rw [hrec i hi2, if_neg (by omega), if_neg (by omega), hgd (i - 1) hi1]
        · rw [hi2, hend, if_neg hn]
          rw [hgd (n - 1) (by omega), hlast h1n]
      · intro _
        have hn3 : n + 1 - 1 = n := by omega
        rw [hn3, hend]

/-- C7: for every return series, calculateCumulativeReturns has the same
length as the input, its first element is exactly 0, and every later element
chains the previous element with the prior period's return as
cumulative[i] = (1 + cumulative[i-1]/100) (1 + returns[i-1]/100) 100 - 100,
the intentional off-by-one convention. -/
theorem claim7_cumulative_returns (returns : List ℚ) :
    (PortfolioMetrics.calculateCumulativeReturns returns).length = returns.length ∧
    (returns ≠ [] → (PortfolioMetrics.calculateCumulativeReturns returns).getD 0 0 = 0) ∧
    (∀ i, 1 ≤ i → i < returns.length →
      (PortfolioMetrics.calculateCumulativeReturns returns).getD i 0 =
        (1 + (PortfolioMetrics.calculateCumulativeReturns returns).getD (i - 1) 0 / 100) *
        (1 + returns.getD (i - 1) 0 / 100) * 100 - 100) := by
  rw [calculateCumulativeReturns_eq]
  by_cases he : returns.isEmpty
  · rw [if_pos he]
    refine ⟨?_, ?_, ?_⟩
    · rw [List.isEmpty_iff.mp he]
    · intro hne; exact absurd (List.isEmpty_iff.mp he) hne
    · intro i h1 h2
      rw [List.isEmpty_iff.mp he] at h2
      cases h2.trans_le (by simp) |>.false
  · rw [if_neg he]
    obtain ⟨hl, hrec, -⟩ := cumulFold_spec returns returns.length
    refine ⟨hl, ?_, ?_⟩
    · intro hne
      have h0 : 0 < returns.length := List.length_pos.mpr hne
      rw [hrec 0 h0, if_pos rfl]
    · intro i h1 h2
      rw [hrec i h2, if_neg (by omega)]
      rfl

/-- C7, witness: the theorem applied to the concrete series [10, 20], whose
cumulative series is [0, 10]: same length, first element 0, and entry 1
equals (1 + 0/100)(1 + 10/100)100 - 100 = 10. -/
theorem claim7_witness :
    (([10, 20] : List ℚ) ≠ []) ∧ (1 : ℕ) ≤ 1 ∧ 1 < ([10, 20] : List ℚ).length ∧
    (PortfolioMetrics.calculateCumulativeReturns [10, 20]).length = 2 ∧
    (PortfolioMetrics.calculateCumulativeReturns [10, 20]).getD 0 0 = 0 ∧
    (PortfolioMetrics.calculateCumulativeReturns [10, 20]).getD 1 0 =
      (1 + (PortfolioMetrics.calculateCumulativeReturns [10, 20]).getD 0 0 / 100) *
      (1 + ([10, 20] : List ℚ).getD 0 0 / 100) * 100 - 100 :=
  ⟨by decide, le_refl 1, by decide,
    (claim7_cumulative_returns [10, 20]).1,
    (claim7_cumulative_returns [10, 20]).2.1 (by decide),
    (claim7_cumulative_returns [10, 20]).2.2 1 (le_refl 1) (by decide)⟩

/-! Claim C8. -/

/-- C8, counterexample: two unparsable date labels do not fall back to the
length heuristic.  A 60-element series alone is classified monthly (12), but
with dates present and invalid the NaN day gap fails every comparison and
the result is annual (1). -/
theorem claim8_counterexample :
    (PortfolioMetrics.detectFrequency (fun q => q) (List.replicate 60 0)
      (some [none, none])).periods = 1 ∧
    (PortfolioMetrics.detectFrequency (fun q => q) (List.replicate 60 0) none).periods = 12 ∧
    (PortfolioMetrics.detectFrequency (fun q => q) (List.replicate 60 0)
      (some [none, none])).periods ≠
      (PortfolioMetrics.detectFrequency (fun q => q) (List.replicate 60 0) none).periods := by
  refine ⟨by decide, by decide, by decide⟩

/-- C8, amended: with at least two date labels none of which parses,
detectFrequency returns annual (periodsPerYear 1), regardless of the length
of the series, so it matches the length heuristic only when that heuristic
itself gives annual; and for every input it returns a FrequencyInfo whose
periodsPerYear is one of 252, 52, 12, 4, 1 (hence positive) and whose factor
is the square root of periodsPerYear, with no error path. -/
theorem claim8_amended (sqrtQ : ℚ → ℚ) (returns : List ℚ) :
    (∀ ds : List (Option ℚ), 2 ≤ ds.length → (∀ d ∈ ds, d = none) →
      PortfolioMetrics.detectFrequency sqrtQ returns (some ds) = ⟨1, "annual", 1⟩) ∧
    (∀ dates : Option (List (Option ℚ)),
      (PortfolioMetrics.detectFrequency sqrtQ returns dates).periods ∈
        ([252, 52, 12, 4, 1] : List ℕ) ∧
      0 < (PortfolioMetrics.detectFrequency sqrtQ returns dates).periods ∧
      (sqrtQ 1 = 1 →
        (PortfolioMetrics.detectFrequency sqrtQ returns dates).factor =
          sqrtQ ((PortfolioMetrics.detectFrequency sqrtQ returns dates).periods : ℚ))) := by
  constructor
  · intro ds h2 hall
    have h0 : ds[0]?.join = none := by
      cases hg : ds[0]? with
      | none => rfl
      | some d =>
        have hd : d ∈ ds := List.getElem?_mem hg
        rw [hall d hd]
        rfl
    have h1 : ds[1]?.join = none := by
      cases hg : ds[1]? with
      | none => rfl
      | some d =>
        have hd : d ∈ ds := List.getElem?_mem hg
        rw [hall d hd]
        rfl
    unfold PortfolioMetrics.detectFrequency
    dsimp only
    rw [if_pos h2, h0, h1]
  · intro dates
    have hGoodLen : ∀ m : ℕ,
        (PortfolioMetrics.lengthFrequency sqrtQ m).periods ∈ ([252, 52, 12, 4, 1] : List ℕ) ∧
        0 < (PortfolioMetrics.lengthFrequency sqrtQ m).periods ∧
        (sqrtQ 1 = 1 → (PortfolioMetrics.lengthFrequency sqrtQ m).factor =
          sqrtQ ((PortfolioMetrics.lengthFrequency sqrtQ m).periods : ℚ)) := by
      intro m
      unfold PortfolioMetrics.lengthFrequency
      split_ifs <;> exact ⟨by norm_num, by norm_num, fun hs1 => by norm_num [hs1]⟩
    cases dates with
    | none => exact hGoodLen _
    | some ds =>
      unfold PortfolioMetrics.detectFrequency
      dsimp only
      by_cases hlen : 2 ≤ ds.length
      · rw [if_pos hlen]
        cases h0 : ds[0]?.join with
        | none => exact ⟨by norm_num, by norm_num, fun hs1 => by norm_num [hs1]⟩
        | some t1 =>
          cases h1 : ds[1]?.join with
          | none => exact ⟨by norm_num, by norm_num, fun hs1 => by norm_num [hs1]⟩
          | some t2 =>
            dsimp only
            split_ifs <;> exact ⟨by norm_num, by norm_num, fun hs1 => by norm_num [hs1]⟩
      · rw [if_neg hlen]
        exact hGoodLen _

/-- C8, witness: the amended unparsable-dates clause applied to the concrete
60-element series with two invalid date labels. -/
theorem claim8_witness :
    (2 ≤ ([none, none] : List (Option ℚ)).length) ∧
    (∀ d ∈ ([none, none] : List (Option ℚ)), d = none) ∧
    PortfolioMetrics.detectFrequency (fun q => q) (List.replicate 60 0) (some [none, none]) =
      ⟨1, "annual", 1⟩ :=
  ⟨by decide, by decide,
    (claim8_amended (fun q => q) (List.replicate 60 0)).1 [none, none] (by decide) (by decide)⟩

/-! Claim C6. -/

/-- C6: calculatePortfolioReturns computes the weighted sum per requested
index.  For the map with weights 60 and 40 and series defined at indices
0..11, entry i is exactly 60/100 A[i] + 40/100 B[i]; in general the output
has the length of the index list, a zero total weight or an empty active set
yields all zeros, and otherwise each entry is the sum over positive-weight
assets having a series, of weight/100 times the value, skipping assets whose
value at that index is undefined. -/
theorem claim6_portfolio_returns :
    (∀ (a b : List ℚ) (i : ℕ), 12 ≤ a.length → 12 ≤ b.length → i < 12 →
      (PortfolioMetrics.calculatePortfolioReturns [("A", 60), ("B", 40)]
        [("A", a.map some), ("B", b.map some)] (List.range 12)).getD i 0 =
        (60 : ℚ) / 100 * a.getD i 0 + 40 / 100 * b.getD i 0) ∧
    (∀ weights assetReturns indices,
      (PortfolioMetrics.calculatePortfolioReturns weights assetReturns indices).length =
        indices.length) ∧
    (∀ weights assetReturns indices, sumValues weights = 0 →
      PortfolioMetrics.calculatePortfolioReturns weights assetReturns indices =
        indices.map (fun _ => 0)) ∧
    (∀ weights assetReturns indices,
      (weights.filter (fun p => decide (0 < p.2) &&
        (PortfolioMetrics.alookup assetReturns p.1).isSome)).isEmpty = true →
      PortfolioMetrics.calculatePortfolioReturns weights assetReturns indices =
        indices.map (fun _ => 0)) ∧
    (∀ weights assetReturns indices, sumValues weights ≠ 0 →
      (weights.filter (fun p => decide (0 < p.2) &&
        (PortfolioMetrics.alookup assetReturns p.1).isSome)).isEmpty = false →
      ∀ j, j < indices.length →
        (PortfolioMetrics.calculatePortfolioReturns weights assetReturns indices).getD j 0 =
          (((weights.filter (fun p => decide (0 < p.2) &&
            (PortfolioMetrics.alookup assetReturns p.1).isSome)).map Prod.fst).map
            (fun asset => match PortfolioMetrics.entryAt assetReturns asset (indices.getD j 0) with
              | some v => wlookup weights asset / 100 * v
              | none => 0)).sum) := by
  refine ⟨?_, ?_, ?_, ?_, ?_⟩
  · intro a b i ha hb hi
    have hia : i < a.length := lt_of_lt_of_le hi ha
    have hib : i < b.length := lt_of_lt_of_le hi hb
    unfold PortfolioMetrics.calculatePortfolioReturns
    rw [if_neg (by norm_num [sumValues])]
    dsimp only
    rw [if_neg (by simp [PortfolioMetrics.alookup, List.find?])]
    have hrange : (List.range 12)[i]? = some i := List.getElem?_range hi
    rw [List.getD_eq_getElem?_getD, List.getElem?_map, hrange]
    have hA : PortfolioMetrics.entryAt [("A", a.map some), ("B", b.map some)] "A" i =
        some (a.getD i 0) := by
      simp [PortfolioMetrics.entryAt, PortfolioMetrics.alookup, List.find?,
        List.getElem?_map, List.getElem?_eq_getElem hia, List.getD_eq_getElem?_getD]
    have hB : PortfolioMetrics.entryAt [("A", a.map some), ("B", b.map some)] "B" i =
        some (b.getD i 0) := by
      simp [PortfolioMetrics.entryAt, PortfolioMetrics.alookup, List.find?,
        List.getElem?_map, List.getElem?_eq_getElem hib, List.getD_eq_getElem?_getD]
    simp [PortfolioMetrics.alookup, List.find?, List.filter, hA, hB, wlookup]
  · intro weights assetReturns indices
    unfold PortfolioMetrics.calculatePortfolioReturns
    dsimp only
    split_ifs <;> simp
  · intro weights assetReturns indices h
    unfold PortfolioMetrics.calculatePortfolioReturns
    rw [if_pos h]
  · intro weights assetReturns indices h
    unfold PortfolioMetrics.calculatePortfolioReturns
    dsimp only
    split_ifs with h1 h2
    · rfl
    · rfl
    · exact absurd (by simpa using h) (by simpa using h2)
  · intro weights assetReturns indices ht ha j hj
    have hmapne : (((weights.filter (fun p => decide (0 < p.2) &&
        (PortfolioMetrics.alookup assetReturns p.1).isSome)).map Prod.fst).isEmpty = true) →
        False := by
      intro hmap
      rw [List.isEmpty_iff, List.map_eq_nil_iff] at hmap
      rw [hmap] at ha
      cases ha
    unfold PortfolioMetrics.calculatePortfolioReturns
    rw [if_neg ht]
    dsimp only
    rw [if_neg hmapne]
    have hidx : indices[j]? = some (indices.getD j 0) := by
      rw [List.getD_eq_getElem?_getD, List.getElem?_eq_getElem hj]
      rfl
    rw [List.getD_eq_getElem?_getD, List.getElem?_map, hidx]
    rfl

/-- C6, witness: the 60/40 aggregation formula applied at index 5 of two
concrete 12-element series. -/
theorem claim6_witness :
    (12 ≤ ([1, 2, 3, 4, 5, 6, 7, 8, 9, 10, 11, 12] : List ℚ).length) ∧
    (12 ≤ ([2, 2, 2, 2, 2, 2, 2, 2, 2, 2, 2, 2] : List ℚ).length) ∧
    (5 < 12) ∧
    (PortfolioMetrics.calculatePortfolioReturns [("A", 60), ("B", 40)]
      [("A", ([1, 2, 3, 4, 5, 6, 7, 8, 9, 10, 11, 12] : List ℚ).map some),
        ("B", ([2, 2, 2, 2, 2, 2, 2, 2, 2, 2, 2, 2] : List ℚ).map some)]
      (List.range 12)).getD 5 0 =
      (60 : ℚ) / 100 * ([1, 2, 3, 4, 5, 6, 7, 8, 9, 10, 11, 12] : List ℚ).getD 5 0 +
        40 / 100 * ([2, 2, 2, 2, 2, 2, 2, 2, 2, 2, 2, 2] : List ℚ).getD 5 0 :=
  ⟨by decide, by decide, by decide,
    claim6_portfolio_returns.1 [1, 2, 3, 4, 5, 6, 7, 8, 9, 10, 11, 12]
      [2, 2, 2, 2, 2, 2, 2, 2, 2, 2, 2, 2] 5 (by decide) (by decide) (by decide)⟩

/-! Claim C9. -/

/-- The sum of a constant list. -/
theorem sum_of_const (l : List ℚ) (c : ℚ) (h : ∀ x ∈ l, x = c) :
    l.sum = (l.length : ℚ) * c := by
  induction l with
  | nil => simp
  | cons x rest ih =>
    rw [List.sum_cons, h x (List.mem_cons_self _ _),
      ih (fun y hy => h y (List.mem_cons_of_mem _ hy))]
    simp only [List.length_cons]
    push_cast
    ring

/-- Central-moment sums of a constant series vanish: each deviation from the
mean is zero. -/
theorem devsum_const_eq_zero (l : List ℚ) (c : ℚ) (k : ℕ) (hk : k ≠ 0)
    (h : ∀ x ∈ l, x = c) (hne : l ≠ []) :
    (l.map (fun r => (r - l.sum / (l.length : ℚ)) ^ k)).sum = 0 := by
  have hlen : (l.length : ℚ) ≠ 0 := by
    have h2 : l.length ≠ 0 := fun h0 => hne (List.length_eq_zero.mp h0)
    exact_mod_cast h2
  have hmean : l.sum / (l.length : ℚ) = c := by
    rw [sum_of_const l c h]
    field_simp
  apply List.sum_eq_zero
  intro y hy
  obtain ⟨x, hx, rfl⟩ := List.mem_map.mp hy
  rw [h x hx, hmean]
  simp [zero_pow hk]

/-- C9, counterexample instantiation of Math.sqrt: agrees with the real
square root at every point the evaluations below apply it (0 and 0.0144). -/
def sqrtC9 : ℚ → ℚ := fun q => if q = 0.0144 then 0.12 else 0

/-- C9, counterexample instantiation of Math.pow: agrees with the real power
at every point the evaluations below apply it (0 raised to 1.5). -/
def powC9 : ℚ → ℚ → ℚ := fun _ _ => 0

/-- C9, counterexample: zero sample variance does not force Sortino,
skewness and kurtosis to 0.  The constant series [-10, -10] (annual
frequency, risk-free rate 0.02) has sample variance 0 yet Sortino -1, since
the downside deviation 0.12 is computed independently of the variance; and
for the constant series [5, 5] the unguarded skewness and kurtosis divisions
are 0/0, NaN (none), not 0. -/
theorem claim9_counterexample :
    (PortfolioMetrics.calculateMetricsForReturns sqrtC9 powC9 [-10, -10] 0.02 none).sortino
      = -1 ∧
    (PortfolioMetrics.calculateMetricsForReturns sqrtC9 powC9 [-10, -10] 0.02 none).sortino
      ≠ 0 ∧
    (PortfolioMetrics.calculateAdditionalMetrics sqrtC9 powC9 [5, 5] none none).skewness
      = none ∧
    (PortfolioMetrics.calculateAdditionalMetrics sqrtC9 powC9 [5, 5] none none).kurtosis
      = none ∧
    (PortfolioMetrics.calculateAdditionalMetrics sqrtC9 powC9 [5, 5] none none).skewness
      ≠ some 0 := by
  refine ⟨by decide, by decide, by decide, by decide, by decide⟩

/-- C9, amended: the guarded divisions default to 0 but the unguarded ones
do not.  For every nonempty constant return series: Sharpe is 0 (its guard
sees a zero or NaN standard deviation); skewness and kurtosis are NaN
(none), not 0, their divisions being unguarded; a constant benchmark of
equal length gives beta 0 (guarded); and Sortino is 0 exactly when the
downside set is empty, not whenever the variance is 0.  Nothing raises: all
paths return values. -/
theorem claim9_amended (sqrtQ : ℚ → ℚ) (powQ : ℚ → ℚ → ℚ) (rf c c2 : ℚ)
    (dates : Option (List (Option ℚ))) (bench : Option (List ℚ)) (returns : List ℚ)
    (hne : returns ≠ []) (hconst : ∀ x ∈ returns, x = c) :
    (sqrtQ 0 = 0 →
      (PortfolioMetrics.calculateMetricsForReturns sqrtQ powQ returns rf dates).sharpe = 0) ∧
    (powQ 0 (3 / 2) = 0 →
      (PortfolioMetrics.calculateAdditionalMetrics sqrtQ powQ returns bench dates).skewness
        = none) ∧
    (powQ 0 2 = 0 →
      (PortfolioMetrics.calculateAdditionalMetrics sqrtQ powQ returns bench dates).kurtosis
        = none) ∧
    (∀ bl : List ℚ, bl.length = returns.length → (∀ x ∈ bl, x = c2) →
      (PortfolioMetrics.calculateAdditionalMetrics sqrtQ powQ returns (some bl) dates).beta
        = 0) ∧
    ((returns.map (fun r => r / 100)).filter (fun r => decide (r <
        rf / ((PortfolioMetrics.detectFrequency sqrtQ returns dates).periods : ℚ))) = [] →
      (PortfolioMetrics.calculateMetricsForReturns sqrtQ powQ returns rf dates).sortino = 0) := by
  have hie : ¬ (returns.isEmpty = true) := by
    simp [List.isEmpty_iff, hne]
  have hmne : returns.map (fun r => r / 100) ≠ [] := by
    simp [hne]
  have hmconst : ∀ x ∈ returns.map (fun r => r / 100), x = c / 100 := by
    intro x hx
    obtain ⟨y, hy, rfl⟩ := List.mem_map.mp hx
    rw [hconst y hy]
  have hz2 := devsum_const_eq_zero (returns.map (fun r => r / 100)) (c / 100) 2
    (by norm_num) hmconst hmne
  have hz3 := devsum_const_eq_zero (returns.map (fun r => r / 100)) (c / 100) 3
    (by norm_num) hmconst hmne
  have hz4 := devsum_const_eq_zero (returns.map (fun r => r / 100)) (c / 100) 4
    (by norm_num) hmconst hmne
  refine ⟨?_, ?_, ?_, ?_, ?_⟩
  · intro hs0
    unfold PortfolioMetrics.calculateMetricsForReturns
    rw [if_neg hie]
    dsimp only
    rw [hz2]
    by_cases hn1 : ((returns.length : ℚ) - 1) = 0
    · simp [jsDiv, hn1]
    · simp [jsDiv, hn1, hs0]
  · intro hp0
    unfold PortfolioMetrics.calculateAdditionalMetrics
    rw [if_neg hie]
    dsimp only
    rw [hz2, hz3]
    by_cases hn1 : ((returns.length : ℚ) - 1) = 0
    · simp [jsDiv, hn1]
    · simp [jsDiv, hn1, hp0]
  · intro hp2
    unfold PortfolioMetrics.calculateAdditionalMetrics
    rw [if_neg hie]
    dsimp only
    rw [hz2, hz4]
    by_cases hn1 : ((returns.length : ℚ) - 1) = 0
    · simp [jsDiv, hn1]
    · simp [jsDiv, hn1, hp2]
  · intro bl hlen hblconst
    have hblne : bl ≠ [] := by
      intro h0
      rw [h0] at hlen
      exact hne (List.length_eq_zero.mp hlen.symm)
    have hbconst : ∀ x ∈ bl.map (fun r => r / 100), x = c2 / 100 := by
      intro x hx
      obtain ⟨y, hy, rfl⟩ := List.mem_map.mp hx
      rw [hblconst y hy]
    have hbz2 := devsum_const_eq_zero (bl.map (fun r => r / 100)) (c2 / 100) 2
      (by norm_num) hbconst (by simp [hblne])
    unfold PortfolioMetrics.calculateAdditionalMetrics
    rw [if_neg hie]
    dsimp only
    rw [if_pos hlen, hbz2]
    by_cases hn1 : ((returns.length : ℚ) - 1) = 0
    · simp [jsDiv, hn1]
    · simp [jsDiv, hn1]
  · intro hds
    unfold PortfolioMetrics.calculateMetricsForReturns
    rw [if_neg hie]
    dsimp only
    rw [hds]
    simp

/-- C9, witness: the amended guard behaviour at the concrete constant series
[5, 5] with risk-free rate 0.02 and constant benchmark [7, 7]: Sharpe 0,
skewness and kurtosis NaN, beta 0, and Sortino 0 because the downside set is
empty. -/
theorem claim9_witness :
    (([5, 5] : List ℚ) ≠ []) ∧ (∀ x ∈ ([5, 5] : List ℚ), x = 5) ∧
    sqrtC9 0 = 0 ∧ powC9 0 (3 / 2) = 0 ∧ powC9 0 2 = 0 ∧
    (PortfolioMetrics.calculateMetricsForReturns sqrtC9 powC9 [5, 5] 0.02 none).sharpe = 0 ∧
    (PortfolioMetrics.calculateAdditionalMetrics sqrtC9 powC9 [5, 5] none none).skewness
      = none ∧
    (PortfolioMetrics.calculateAdditionalMetrics sqrtC9 powC9 [5, 5] none none).kurtosis
      = none ∧
    (PortfolioMetrics.calculateAdditionalMetrics sqrtC9 powC9 [5, 5] (some [7, 7]) none).beta
      = 0 ∧
    (PortfolioMetrics.calculateMetricsForReturns sqrtC9 powC9 [5, 5] 0.02 none).sortino = 0 :=
  ⟨by decide, by decide, by decide, by decide, by decide,
    (claim9_amended sqrtC9 powC9 0.02 5 7 none none [5, 5] (by decide) (by decide)).1
      (by decide),
    (claim9_amended sqrtC9 powC9 0.02 5 7 none none [5, 5] (by decide) (by decide)).2.1
      (by decide),
    (claim9_amended sqrtC9 powC9 0.02 5 7 none none [5, 5] (by decide) (by decide)).2.2.1
      (by decide),
    (claim9_amended sqrtC9 powC9 0.02 5 7 none none [5, 5] (by decide) (by decide)).2.2.2.1
      [7, 7] (by decide) (by decide),
    (claim9_amended sqrtC9 powC9 0.02 5 7 none none [5, 5] (by decide) (by decide)).2.2.2.2
      (by decide)⟩
